import Mathlib

/-!
Verification of the numerical integration engine of `mcp-calc-tools`.

The Python source is shallowly embedded over exact rationals (`ℚ` stands in
for IEEE doubles; the claims checked here are either exact algebraic
identities of the discretization schemes or key/shape properties of the
response dictionaries, so the embedding over `ℚ` is faithful to the source
arithmetic).  External collaborators are modelled at their boundary:

* the CAS expression evaluator (`sympy.lambdify` / `sympy.subs`) becomes a
  fallible function `EvalFn := ℚ → Except String ℚ` passed to each handler;
  parsing (`sympy.sympify`) becomes an `Except String EvalFn` argument, so a
  malformed expression string is the `.error` case;
* `numpy` arrays become lists, elementwise array operations become list maps
  over adjacent pairs (`adjPairs` models the `a[:-1]`/`a[1:]` pairing,
  `everyOther` models `a[::2]`);
* the random Wiener increments of the Ito handler (`np.random.normal`)
  become an explicit input matrix `dW`, one row per path: every theorem
  quantifies over the realization;
* the numeric square root (`np.sqrt`) is an abstract parameter `sqrtQ`,
  used exactly where the source calls it;
* a Python exception that is caught by the `try`/`except` of an operation is
  an `Except.error` carried to the handler boundary; an exception raised
  *past* the boundary (no `try` in the source) is `PyOutcome.raises`.
-/

/-- A JSON-ish value appearing in a tool response dictionary. -/
inductive RVal where
  | num (q : ℚ)
  | str (s : String)
  | arr (l : List ℚ)
deriving DecidableEq

/-- A tool response: the key/value dictionary returned by a handler
(insertion order of the Python dict literal is kept). -/
abbrev Resp := List (String × RVal)

/-- Outcome of calling a tool operation: a normal return of a response
dictionary, or an exception escaping past the API boundary. -/
inductive PyOutcome where
  | returns (r : Resp)
  | raises (msg : String)
deriving DecidableEq

/-- Returns `true` iff the operation returned normally (raised nothing). -/
def PyOutcome.isReturns : PyOutcome → Bool
  | .returns _ => true
  | .raises _ => false

/-- The response of a normal return (`[]` for the raising case, unused). -/
def respOf : PyOutcome → Resp
  | .returns r => r
  | .raises _ => []

/-- Keys of a response dictionary. -/
def keysOf (r : Resp) : List String := r.map Prod.fst

/-- The numeric value stored under key `k` (0 when absent or non-numeric). -/
def numAt (r : Resp) (k : String) : ℚ :=
  match r.lookup k with
  | some (.num q) => q
  | _ => 0

/-- A point evaluator for a parsed expression: the CAS collaborator.
`Except.error` models an exception during point-wise evaluation. -/
abbrev EvalFn := ℚ → Except String ℚ

/-- The evaluator of a total function (never raises). -/
def totalEval (g : ℚ → ℚ) : EvalFn := fun q => .ok (g q)

/-- Evaluate an expression at every sample point (models a vectorized
`f(x)` numpy call or a Python comprehension: any pointwise exception
aborts the whole evaluation). -/
def evalList (f : EvalFn) : List ℚ → Except String (List ℚ)
  | [] => .ok []
  | x :: t =>
    match f x with
    | .error m => .error m
    | .ok y =>
      match evalList f t with
      | .error m => .error m
      | .ok ys => .ok (y :: ys)

/-- Adjacent pairs of a list: models the elementwise pairing of the numpy
slices `a[:-1]` and `a[1:]`. -/
def adjPairs : List ℚ → List (ℚ × ℚ)
  | x :: y :: t => (x, y) :: adjPairs (y :: t)
  | _ => []

/-- Every other element, starting with the first: models `a[::2]`. -/
def everyOther : List ℚ → List ℚ
  | [] => []
  | [x] => [x]
  | x :: _ :: t => x :: everyOther t

/-- Model of `np.linspace a b num`: `num` evenly spaced points from `a` to `b`
inclusive (a single point `a` when `num = 1`, empty when `num = 0`). -/
def linspace (a b : ℚ) (num : ℕ) : List ℚ :=
  if num = 1 then [a]
  else (List.range num).map (fun i : ℕ => a + (i : ℚ) * (b - a) / ((num : ℚ) - 1))

/-- Model of `np.trapz y x` / `scipy.integrate.trapezoid(y, x)`: the composite
trapezoid rule over the sample points (external collaborator, modelled by
its documented formula). -/
def trapz (ys xs : List ℚ) : ℚ :=
  (List.zipWith (fun p q => (p.1 + p.2) / 2 * (q.2 - q.1))
    (adjPairs ys) (adjPairs xs)).sum

/-- Model of `np.min` of a sample array (defaults to 0 on `[]`; the source never
reaches the empty case). -/
def listMin : List ℚ → ℚ
  | [] => 0
  | x :: t => t.foldl min x

/-- Model of `np.max` of a sample array (defaults to 0 on `[]`). -/
def listMax : List ℚ → ℚ
  | [] => 0
  | x :: t => t.foldl max x

/-!
## Core module `src/mcp_calc_tools/core/calculus.py`

The core functions return strings: `str(value)` on success and an
`"Error: ..."` string when an exception is caught (or, for an unknown
method selector, the explicit invalid-method message).  The result is
modelled as a tagged value; the distinct exception sources get distinct
tags so the theorems can tell a division fault from a parameter check.
-/

/-- Result of a core calculus function: the serialized value, or one of the
error strings it can produce.  `zeroDivError` is the caught
`ZeroDivisionError` of `delta_x = (b - a) / n` at `n = 0`; `indexError` is
the caught `IndexError` of `x_values[0]` on an empty partition list;
`invalidMethodError` is the explicit `"Error: Invalid method..."` return;
`evalError` carries the message of a parse/evaluation exception. -/
inductive CoreResult where
  | val (q : ℚ)
  | zeroDivError
  | indexError
  | invalidMethodError
  | evalError (msg : String)
deriving DecidableEq

/-- Embedding of `riemann_sum(expression, variable, a, b, n, method)` from
`core/calculus.py`.  `pf` is the outcome of `sympify(expression)` (the
parsed evaluator or a parse exception).  The body computes
`delta_x = (b - a) / n` *before* dispatching on `method`, so `n = 0`
always surfaces as the caught division fault; a negative `n` makes the
`range` comprehensions empty, so left/right/midpoint return the empty sum
`0` as a success. -/
def riemann_sum (pf : Except String EvalFn) (a b : ℚ) (n : ℤ)
    (method : String) : CoreResult :=
  match pf with
  | .error m => .evalError m
  | .ok f =>
    if n = 0 then .zeroDivError
    else
      let dx := (b - a) / (n : ℚ)
      if method = "left" then
        match evalList f ((List.range n.toNat).map (fun i : ℕ => a + (i : ℚ) * dx)) with
        | .error m => .evalError m
        | .ok ys => .val ((ys.map (· * dx)).sum)
      else if method = "right" then
        match evalList f ((List.range n.toNat).map (fun i : ℕ => a + ((i : ℚ) + 1) * dx)) with
        | .error m => .evalError m
        | .ok ys => .val ((ys.map (· * dx)).sum)
      else if method = "midpoint" then
        match evalList f ((List.range n.toNat).map (fun i : ℕ => a + ((i : ℚ) + 1/2) * dx)) with
        | .error m => .evalError m
        | .ok ys => .val ((ys.map (· * dx)).sum)
      else if method = "trapezoid" then
        let xv := (List.range (n + 1).toNat).map (fun i : ℕ => a + (i : ℚ) * dx)
        match xv with
        | [] => .indexError
        | _ :: _ =>
          match evalList f xv with
          | .error m => .evalError m
          | .ok ys =>
            .val (dx / 2 *
              (ys.headD 0 + 2 * ((ys.drop 1).dropLast).sum + ys.getLastD 0))
      else .invalidMethodError

/-- Embedding of `riemann_stieltjes_sum(expression, variable, integrator, a, b, n, method)`
from `core/calculus.py`: at each method-selected sample point `x` it adds
`expression.subs(x) * integrator.subs(x) * delta_x` — the pointwise product
of `f` and `g` times the uniform width, not an increment of `g`. -/
def riemann_stieltjes_sum (pf pg : Except String EvalFn) (a b : ℚ) (n : ℤ)
    (method : String) : CoreResult :=
  match pf with
  | .error m => .evalError m
  | .ok f =>
    match pg with
    | .error m => .evalError m
    | .ok g =>
      if n = 0 then .zeroDivError
      else
        let dx := (b - a) / (n : ℚ)
        let fg : EvalFn := fun x =>
          match f x with
          | .error m => .error m
          | .ok u =>
            match g x with
            | .error m => .error m
            | .ok v => .ok (u * v)
        if method = "left" then
          match evalList fg ((List.range n.toNat).map (fun i : ℕ => a + (i : ℚ) * dx)) with
          | .error m => .evalError m
          | .ok ws => .val ((ws.map (· * dx)).sum)
        else if method = "right" then
          match evalList fg ((List.range n.toNat).map (fun i : ℕ => a + ((i : ℚ) + 1) * dx)) with
          | .error m => .evalError m
          | .ok ws => .val ((ws.map (· * dx)).sum)
        else if method = "midpoint" then
          match evalList fg ((List.range n.toNat).map (fun i : ℕ => a + ((i : ℚ) + 1/2) * dx)) with
          | .error m => .evalError m
          | .ok ws => .val ((ws.map (· * dx)).sum)
        else .invalidMethodError

/-!
## Core module `integrate` / `limit` (shadowed sympy names)

`core/calculus.py` begins with `from sympy import *`, importing sympy's
`integrate` and `limit`, and then defines module-level functions of the same
names.  Inside each body the call `integrate(expression, variable)` (resp.
`limit(expression, variable, approach)`) therefore resolves to the module
function itself, not to sympy.  The first frame receives strings and
converts them (`sympify` to an expression object, `symbols` to a `Symbol`);
the recursive second frame then passes the already-converted `Symbol` back
into `symbols`, which iterates its non-string argument and raises
`TypeError` (a `Symbol` object is not iterable — the Python message quotes
the type name; the quotes are dropped here).  That exception is caught by
the inner `try` and the resulting `"Error: ..."` string propagates up as an
ordinary return value.  The sympy collaborators `sympify`/`symbols` are
modelled at this boundary; `fuel` models the remaining Python recursion
headroom (exhaustion yields the caught `RecursionError` message). -/

/-- Argument in `expression` position: a raw string (with a flag saying
whether `sympify` can parse it) or an already-sympified expression object
(what a recursive frame receives). -/
inductive ExprArg where
  | str (parseOk : Bool)
  | expr
deriving DecidableEq

/-- Argument in `variable` position: a raw name string, or an
already-converted `Symbol` object (what a recursive frame receives). -/
inductive VarArg where
  | name (s : String)
  | sym (s : String)
deriving DecidableEq

/-- Model of `sympify`: parses a string (failing when malformed), passes an already
sympified expression through unchanged. -/
def sympifyA : ExprArg → Except String ExprArg
  | .str true => .ok .expr
  | .str false => .error "Sympify could not parse the expression"
  | .expr => .ok .expr

/-- Model of `symbols`: converts a name string to a `Symbol`; iterating a non-string
argument raises `TypeError`, so a `Symbol` argument fails. -/
def symbolsA : VarArg → Except String VarArg
  | .name s => .ok (.sym s)
  | .sym _ => .error "Symbol object is not iterable"

/-- Embedding of `integrate(expression, variable)` from `core/calculus.py`: the body
calls the shadowing `integrate` itself.  At `fuel = 0` the interpreter
raises `RecursionError`, caught by the innermost `try`; the error string
then returns normally through every outer frame (`str` of a string is
itself). -/
def integrate : Nat → ExprArg → VarArg → String
  | 0, _, _ => "Error: maximum recursion depth exceeded"
  | fuel + 1, e, v =>
    match sympifyA e with
    | .error m => "Error: " ++ m
    | .ok e2 =>
      match symbolsA v with
      | .error m => "Error: " ++ m
      | .ok v2 => integrate fuel e2 v2

/-- Embedding of `limit(expression, variable, approach)` from `core/calculus.py`: same
self-shadowing recursion; `approach` is passed through untouched. -/
def limit : Nat → ExprArg → VarArg → String → String
  | 0, _, _, _ => "Error: maximum recursion depth exceeded"
  | fuel + 1, e, v, approach =>
    match sympifyA e with
    | .error m => "Error: " ++ m
    | .ok e2 =>
      match symbolsA v with
      | .error m => "Error: " ++ m
      | .ok v2 => limit fuel e2 v2 approach

/-- A string is a tagged error result of the core module: it starts with
the reserved prefix text `"Error: "`. -/
def errorTagged (s : String) : Prop := ∃ m, s = "Error: " ++ m

/-!
## Server operations of `src/server.py` (class `CalcToolsServer`)

Every handler wraps its whole body in `try`/`except Exception`, returning
the success dictionary or `{"error": str(e)}` — so the handler itself
always *returns*.  Each handler is split into its `try`-body (the
`...Compute` function, whose `Except.error` is the caught exception) and
the dictionary rendering.
-/

/-- Body of `_handle_riemann(function, start, end, method)`: 1000 sample
points, `dx = (end - start)/999`; `left`/`right`/`midpoint` sums, anything
else (the `else:  # trapezoid` branch) the composite trapezoid rule. -/
def riemannCompute (pf : Except String EvalFn) (start stop : ℚ)
    (method : String) : Except String ℚ :=
  match pf with
  | .error m => .error m
  | .ok f =>
    let xs := linspace start stop 1000
    let dx := (stop - start) / 999
    if method = "left" then
      match evalList f xs.dropLast with
      | .error m => .error m
      | .ok ys => .ok ((ys.map (· * dx)).sum)
    else if method = "right" then
      match evalList f xs.tail with
      | .error m => .error m
      | .ok ys => .ok ((ys.map (· * dx)).sum)
    else if method = "midpoint" then
      match evalList f ((adjPairs xs).map (fun p => (p.1 + p.2) / 2)) with
      | .error m => .error m
      | .ok ys => .ok ((ys.map (· * dx)).sum)
    else
      match evalList f xs with
      | .error m => .error m
      | .ok ys => .ok (trapz ys xs)

/-- Handler `_handle_riemann`: render the `try` result as the response dict. -/
def handle_riemann (pf : Except String EvalFn) (start stop : ℚ)
    (method : String) : PyOutcome :=
  .returns (match riemannCompute pf start stop method with
    | .ok v => [("result", .num v), ("method", .str method),
                ("interval", .arr [start, stop])]
    | .error m => [("error", .str m)])

/-- Body of `_handle_darboux(function, start, end, partitions)`:
`np.linspace(start, end, partitions + 1)` (raising when the sample count
is negative), then `dx = (end - start)/partitions` (a division fault at
`partitions = 0`), then upper/lower sums of endpoint max/min times `dx`. -/
def darbouxCompute (pf : Except String EvalFn) (start stop : ℚ)
    (partitions : ℤ) : Except String (ℚ × ℚ) :=
  match pf with
  | .error m => .error m
  | .ok f =>
    if partitions + 1 < 0 then
      .error "Number of samples must be non-negative"
    else
      let xs := linspace start stop (partitions + 1).toNat
      if partitions = 0 then .error "float division by zero"
      else
        let dx := (stop - start) / (partitions : ℚ)
        match evalList f xs with
        | .error m => .error m
        | .ok ys =>
          let upper := ((adjPairs ys).map (fun p => max p.1 p.2 * dx)).sum
          let lower := ((adjPairs ys).map (fun p => min p.1 p.2 * dx)).sum
          .ok (upper, lower)

/-- Handler `_handle_darboux`: render the `try` result as the response dict. -/
def handle_darboux (pf : Except String EvalFn) (start stop : ℚ)
    (partitions : ℤ) : PyOutcome :=
  .returns (match darbouxCompute pf start stop partitions with
    | .ok uv =>
      [("upper_sum", .num uv.1), ("lower_sum", .num uv.2),
       ("integral_value", .num ((uv.1 + uv.2) / 2)),
       ("error_bound", .num ((uv.1 - uv.2) / 2))]
    | .error m => [("error", .str m)])

/-- Body of `_handle_riemann_stieltjes(function, integrator, start, end,
partitions)`: evaluate `f` and `g` at the `partitions + 1` uniform points,
take `dg = np.diff(g_vals)` and `f_midpoints = (f_vals[1:] + f_vals[:-1])/2`
(the *average of the endpoint values*, not `f` at the subinterval
midpoint), and sum their elementwise product. -/
def stieltjesCompute (pf pg : Except String EvalFn) (start stop : ℚ)
    (partitions : ℤ) : Except String ℚ :=
  match pf with
  | .error m => .error m
  | .ok f =>
    match pg with
    | .error m => .error m
    | .ok g =>
      if partitions + 1 < 0 then
        .error "Number of samples must be non-negative"
      else
        let xs := linspace start stop (partitions + 1).toNat
        match evalList f xs with
        | .error m => .error m
        | .ok fv =>
          match evalList g xs with
          | .error m => .error m
          | .ok gv =>
            let dg := (adjPairs gv).map (fun p => p.2 - p.1)
            let fm := (adjPairs fv).map (fun p => (p.1 + p.2) / 2)
            .ok (List.zipWith (· * ·) fm dg).sum

/-- Handler `_handle_riemann_stieltjes`: render the `try` result. -/
def handle_riemann_stieltjes (pf pg : Except String EvalFn) (start stop : ℚ)
    (partitions : ℤ) : PyOutcome :=
  .returns (match stieltjesCompute pf pg start stop partitions with
    | .ok v => [("result", .num v), ("partitions", .num (partitions : ℚ))]
    | .error m => [("error", .str m)])

/-- The band membership test of `_handle_lebesgue`:
`(y_values >= level) & (y_values < next_level)`. -/
def bandMask (level nextLevel y : ℚ) : Bool :=
  decide (level ≤ y) && decide (y < nextLevel)

/-- Body of `_handle_lebesgue(function, start, end, levels)`: sample 1000
domain points, partition the sampled range `[y_min, y_max]` into `levels`
level values, count per half-open band `[level, next_level)` and weight by
the band's lower level value times `count * dx`. -/
def lebesgueCompute (pf : Except String EvalFn) (start stop : ℚ)
    (levels : ℤ) : Except String ℚ :=
  match pf with
  | .error m => .error m
  | .ok f =>
    let xs := linspace start stop 1000
    match evalList f xs with
    | .error m => .error m
    | .ok ys =>
      let ymin := listMin ys
      let ymax := listMax ys
      if levels < 0 then
        .error "Number of samples must be non-negative"
      else
        let lvls := linspace ymin ymax levels.toNat
        let dx := (stop - start) / 999
        .ok (((List.range (levels - 1).toNat).map (fun i =>
          let level := lvls.getD i 0
          let nextLevel := lvls.getD (i + 1) 0
          let cnt := (ys.filter (fun y => bandMask level nextLevel y)).length
          level * ((cnt : ℚ) * dx))).sum)

/-- Handler `_handle_lebesgue`: render the `try` result. -/
def handle_lebesgue (pf : Except String EvalFn) (start stop : ℚ)
    (levels : ℤ) : PyOutcome :=
  .returns (match lebesgueCompute pf start stop levels with
    | .ok v => [("result", .num v), ("levels_used", .num (levels : ℚ)),
                ("domain", .arr [start, stop])]
    | .error m => [("error", .str m)])

/-- A two-variable evaluator `f(t, w)` for the Ito integrand. -/
abbrev EvalFn2 := ℚ → ℚ → Except String ℚ

/-- The evaluator of a total two-variable function. -/
def totalEval2 (g : ℚ → ℚ → ℚ) : EvalFn2 := fun t w => .ok (g t w)

/-- One path of the Ito loop: `np.sum(f(times[:-1], W[i,:-1]) * dW[i,:])`
where `times[j] = start + j*dt` and `W[i]` is the cumulative sum of
`dW[i]` with a 0 inserted in front — so each increment `d` is paired with
the *left* endpoint values `(t, w)` accumulated so far. -/
def itoPath (f : EvalFn2) (t dt w : ℚ) : List ℚ → Except String ℚ
  | [] => .ok 0
  | d :: rest =>
    match f t w with
    | .error m => .error m
    | .ok v =>
      match itoPath f (t + dt) dt (w + d) rest with
      | .error m => .error m
      | .ok tailSum => .ok (v * d + tailSum)

/-- The `for i in range(paths)` loop: one integral value per row of `dW`. -/
def evalPaths (f : EvalFn2) (t0 dt : ℚ) : List (List ℚ) → Except String (List ℚ)
  | [] => .ok []
  | row :: rest =>
    match itoPath f t0 dt 0 row with
    | .error m => .error m
    | .ok v =>
      match evalPaths f t0 dt rest with
      | .error m => .error m
      | .ok vs => .ok (v :: vs)

/-- Body of `_handle_ito(function, start_time, end_time, paths, steps)`.
`dW` is the realization of `np.random.normal(0, sqrt(dt), (paths, steps))`
— the randomness made explicit, one row per path.  Returns the sample mean
and the variance (`np.std` squared: mean of squared deviations, divisor
`paths`); the renderer applies the abstract square root. -/
def itoCompute (pf : Except String EvalFn2) (startT stopT : ℚ)
    (paths steps : ℤ) (dW : List (List ℚ)) : Except String (ℚ × ℚ) :=
  if steps = 0 then .error "float division by zero"
  else
    let dt := (stopT - startT) / (steps : ℚ)
    if paths < 0 then .error "negative dimensions are not allowed"
    else
      match pf with
      | .error m => .error m
      | .ok f =>
        match evalPaths f startT dt dW with
        | .error m => .error m
        | .ok vals =>
          let mean := vals.sum / (paths : ℚ)
          let variance := (vals.map (fun v => (v - mean) ^ 2)).sum / (paths : ℚ)
          .ok (mean, variance)

/-- Handler `_handle_ito`: render the `try` result, applying the external numeric
square root `sqrtQ` (`np.sqrt`) to the variance (`np.std`) and to `paths`
for the `mean ± 1.96*std/sqrt(paths)` confidence interval. -/
def handle_ito (pf : Except String EvalFn2) (startT stopT : ℚ)
    (paths steps : ℤ) (dW : List (List ℚ)) (sqrtQ : ℚ → ℚ) : PyOutcome :=
  .returns (match itoCompute pf startT stopT paths steps dW with
    | .ok mv =>
      let std := sqrtQ mv.2
      [("mean", .num mv.1), ("std_dev", .num std),
       ("confidence_interval",
        .arr [mv.1 - 196/100 * std / sqrtQ (paths : ℚ),
              mv.1 + 196/100 * std / sqrtQ (paths : ℚ)]),
       ("paths", .num (paths : ℚ)), ("steps", .num (steps : ℚ))]
    | .error m => [("error", .str m)])

/-!
## Tools of `src/mcp_calc_tools/server/server.py` and
`src/mcp_calc_tools/server/advanced_calculus.py`
-/

/-- Embedding of `linear_regression(x_values, y_values)`: **no** `try`/`except` — the
explicit `raise ValueError` on mismatched lengths escapes past the API
boundary.  (At singular inputs numpy float division produces `inf`/`nan`
rather than raising; over `ℚ` the quotient defaults to 0 — no claim
touches that garbage-in case.) -/
def linear_regression (x_values y_values : List ℚ) : PyOutcome :=
  if x_values.length ≠ y_values.length then
    .raises "Input arrays must be the same length"
  else
    let n : ℚ := x_values.length
    let sx := x_values.sum
    let sy := y_values.sum
    let sxy := (List.zipWith (· * ·) x_values y_values).sum
    let sxx := (x_values.map (fun v => v * v)).sum
    let slope := (n * sxy - sx * sy) / (n * sxx - sx * sx)
    let intercept := (sy - slope * sx) / n
    let ypred := x_values.map (fun v => slope * v + intercept)
    let ssRes := (List.zipWith (fun y yp => (y - yp) ^ 2) y_values ypred).sum
    let ssTot := (y_values.map (fun y => (y - sy / n) ^ 2)).sum
    .returns [("slope", .num slope), ("intercept", .num intercept),
              ("r_squared", .num (1 - ssRes / ssTot))]

/-- Body of `numerical_integration_methods(function, lower_bound,
upper_bound, method, points)` from `advanced_calculus.py`.  The `quad` and
`simpson` reductions are delegated to scipy (external collaborator): the
pair of scalars scipy would return for this call is passed in as
`quadVals` (result, error estimate) resp. `simpsonVals` (full- and
half-resolution results).  Note the `"error"` key of every *success*
dictionary carries the numeric error estimate, and the unknown-method case
is a normal return of `{"error": "Unknown method: ..."}`. -/
def numIntTry (f : EvalFn) (lb ub : ℚ) (method : String) (points : ℤ)
    (quadVals simpsonVals : ℚ × ℚ) : Except String Resp :=
  if method = "quad" then
    .ok [("result", .num quadVals.1), ("error", .num quadVals.2),
         ("method", .str "scipy.quad")]
  else if method = "trapezoid" then
    if points < 0 then .error "Number of samples must be non-negative"
    else
      let xs := linspace lb ub points.toNat
      match evalList f xs with
      | .error m => .error m
      | .ok ys =>
        let result := trapz ys xs
        let err := |result - trapz (everyOther ys) (everyOther xs)|
        .ok [("result", .num result), ("error", .num err),
             ("method", .str "trapezoid")]
  else if method = "simpson" then
    if points < 0 then .error "Number of samples must be non-negative"
    else
      let xs := linspace lb ub points.toNat
      match evalList f xs with
      | .error m => .error m
      | .ok _ =>
        .ok [("result", .num simpsonVals.1),
             ("error", .num |simpsonVals.1 - simpsonVals.2|),
             ("method", .str "simpson")]
  else if method = "midpoint" then
    if points = 0 then .error "float division by zero"
    else
      let dx := (ub - lb) / (points : ℚ)
      if points < 0 then .error "Number of samples must be non-negative"
      else
        let xs := linspace (lb + dx / 2) (ub - dx / 2) points.toNat
        match evalList f xs with
        | .error m => .error m
        | .ok ys =>
          let result := ys.sum * dx
          let err := |result - (everyOther ys).sum * dx * 2|
          .ok [("result", .num result), ("error", .num err),
               ("method", .str "midpoint")]
  else .ok [("error", .str ("Unknown method: " ++ method))]

/-- Tool `numerical_integration_methods`: the surrounding `try`/`except`. -/
def numerical_integration_methods (f : EvalFn) (lb ub : ℚ) (method : String)
    (points : ℤ) (quadVals simpsonVals : ℚ × ℚ) : Resp :=
  match numIntTry f lb ub method points quadVals simpsonVals with
  | .ok r => r
  | .error m => [("error", .str ("Error during integration: " ++ m))]

/-!
## Spec-side reference formulas

These definitions follow the wording of the specification (not the code)
and are compared against the embedded operations in the refinement and
correction theorems below.
-/

/-- The `i`-th point of the uniform partition of `[a, b]` into `n`
subintervals: `x_i = a + i*(b-a)/n`. -/
def sPt (a b : ℚ) (n : ℕ) (i : ℕ) : ℚ := a + i * (b - a) / (n : ℚ)

/-- The midpoint of the `i`-th subinterval: `a + (i + 0.5)*(b-a)/n`. -/
def midPt (a b : ℚ) (n : ℕ) (i : ℕ) : ℚ := a + (i + 1/2) * ((b - a) / (n : ℚ))

/-- Spec §4.2: the plain midpoint Riemann sum `Σ f(mid_i)·Δx` of `f` over
the uniform partition of `[a, b]` into `n` subintervals. -/
def midpointSum (f : ℚ → ℚ) (a b : ℚ) (n : ℕ) : ℚ :=
  ∑ i ∈ Finset.range n, f (midPt a b n i) * ((b - a) / (n : ℚ))

/-- Spec §4.4: the Riemann–Stieltjes contract formula
`Σ f(midpoint_i)·Δg_i` with `Δg_i = g(x_{i+1}) - g(x_i)` over the uniform
partition. -/
def specStieltjesMid (f g : ℚ → ℚ) (a b : ℚ) (n : ℕ) : ℚ :=
  ∑ i ∈ Finset.range n,
    f (midPt a b n i) * (g (sPt a b n (i + 1)) - g (sPt a b n i))

/-- What the server Riemann–Stieltjes operation actually computes:
`Σ ((f(x_i) + f(x_{i+1}))/2) · (g(x_{i+1}) - g(x_i))` — the *average of
the endpoint values* of `f` against the increments of `g`. -/
def serverStieltjesFormula (f g : ℚ → ℚ) (a b : ℚ) (n : ℕ) : ℚ :=
  ∑ i ∈ Finset.range n,
    (f (sPt a b n i) + f (sPt a b n (i + 1))) / 2 *
      (g (sPt a b n (i + 1)) - g (sPt a b n i))

/-- The endpoint-average (composite trapezoid) Riemann sum of `f` over the
uniform partition of `[a, b]` into `n` subintervals — what the server
Stieltjes operation reduces to when the integrator is `g(x) = x`. -/
def endpointAvgSum (f : ℚ → ℚ) (a b : ℚ) (n : ℕ) : ℚ :=
  ∑ i ∈ Finset.range n,
    (f (sPt a b n i) + f (sPt a b n (i + 1))) / 2 * ((b - a) / (n : ℚ))

/-- What `riemann_stieltjes_sum` of the core module actually computes for
a given sample point family `pt`: `Σ f(pt_i)·g(pt_i)·Δx` — the pointwise
product of `f` and `g`, not an increment of `g`. -/
def coreStieltjesFormula (f g : ℚ → ℚ) (a b : ℚ) (n : ℕ)
    (pt : ℕ → ℚ) : ℚ :=
  ∑ i ∈ Finset.range n, f (pt i) * g (pt i) * ((b - a) / (n : ℚ))

/-- Spec §4.6: the Ito path integral `Σ f(t_i, W_i)·dW_i` over `steps`
left endpoints, where `t_i = t0 + i*dt` and `W_i` is the sum of the first
`i` increments of the path (`W_0 = 0`). -/
def specPathIntegral (f : ℚ → ℚ → ℚ) (t0 dt : ℚ) (steps : ℕ)
    (row : List ℚ) : ℚ :=
  ∑ i ∈ Finset.range steps, f (t0 + i * dt) ((row.take i).sum) * row.getD i 0

/-- Spec §4.6: the aggregate response of the Ito operation — sample mean,
sample standard deviation (square root of the mean squared deviation) and
the 95% confidence interval `mean ± 1.96·std/√paths`, over the path-wise
integral values of the realization `dW`. -/
def specItoResp (f : ℚ → ℚ → ℚ) (startT stopT : ℚ) (paths steps : ℤ)
    (dW : List (List ℚ)) (sqrtQ : ℚ → ℚ) : Resp :=
  let dt := (stopT - startT) / (steps : ℚ)
  let vals := dW.map (fun row => specPathIntegral f startT dt steps.toNat row)
  let mean := vals.sum / (paths : ℚ)
  let std := sqrtQ ((vals.map (fun v => (v - mean) ^ 2)).sum / (paths : ℚ))
  [("mean", .num mean), ("std_dev", .num std),
   ("confidence_interval",
    .arr [mean - 196/100 * std / sqrtQ (paths : ℚ),
          mean + 196/100 * std / sqrtQ (paths : ℚ)]),
   ("paths", .num (paths : ℚ)), ("steps", .num (steps : ℚ))]

/-- Pure value of one Ito path when the integrand never raises. -/
def itoPathPure (f : ℚ → ℚ → ℚ) (t dt w : ℚ) : List ℚ → ℚ
  | [] => 0
  | d :: rest => f t w * d + itoPathPure f (t + dt) dt (w + d) rest

/-!
## Generic evaluation lemmas
-/

theorem evalList_total (g : ℚ → ℚ) :
    ∀ l : List ℚ, evalList (totalEval g) l = .ok (l.map g) := by
  intro l
  induction l with
  | nil => rfl
  | cons x t ih => simp [evalList, totalEval, ih, Bind.bind, Except.bind]

theorem sum_range_list (f : ℕ → ℚ) (n : ℕ) :
    ((List.range n).map f).sum = ∑ i ∈ Finset.range n, f i := by
  induction n with
  | zero => rfl
  | succ n ih => simp [List.range_succ, Finset.sum_range_succ, ih]

theorem zipWith_map_same {α β γ δ : Type} (F : β → γ → δ) (f1 : α → β)
    (f2 : α → γ) (l : List α) :
    List.zipWith F (l.map f1) (l.map f2) = l.map (fun x => F (f1 x) (f2 x)) := by
  induction l with
  | nil => rfl
  | cons x t ih => simp [ih]

theorem adjPairs_range_map (h : ℕ → ℚ) (m : ℕ) :
    adjPairs ((List.range (m + 1)).map h) =
      (List.range m).map (fun i => (h i, h (i + 1))) := by
  induction m generalizing h with
  | zero =>
    have h1 : List.range 1 = [0] := rfl
    simp [h1, adjPairs]
  | succ m ih =>
    have e1 : List.range (m + 2) = 0 :: (List.range (m + 1)).map Nat.succ :=
      List.range_succ_eq_map _
    have e2 : List.range (m + 1) = 0 :: (List.range m).map Nat.succ :=
      List.range_succ_eq_map _
    have key : (List.range (m + 1)).map (fun i => h (Nat.succ i)) =
        h 1 :: (List.range m).map (fun i => h (Nat.succ (Nat.succ i))) := by
      rw [e2, List.map_cons, List.map_map]
      rfl
    calc adjPairs ((List.range (m + 2)).map h)
        = adjPairs (h 0 :: (List.range (m + 1)).map (fun i => h (Nat.succ i))) := by
          rw [e1, List.map_cons, List.map_map]
          rfl
      _ = adjPairs (h 0 :: h 1 ::
            (List.range m).map (fun i => h (Nat.succ (Nat.succ i)))) := by
          rw [key]
      _ = (h 0, h 1) :: adjPairs (h 1 ::
            (List.range m).map (fun i => h (Nat.succ (Nat.succ i)))) := by
          rw [adjPairs]
      _ = (h 0, h 1) ::
            adjPairs ((List.range (m + 1)).map (fun i => h (Nat.succ i))) := by
          rw [key]
      _ = (h 0, h 1) ::
            (List.range m).map (fun i => (h (Nat.succ i), h (Nat.succ i + 1))) := by
          rw [ih (fun i => h (Nat.succ i))]
      _ = (List.range (m + 1)).map (fun i => (h i, h (i + 1))) := by
          rw [e2, List.map_cons, List.map_map]
          rfl

theorem linspace_eq_map (a b : ℚ) (n : ℕ) :
    linspace a b (n + 1) = (List.range (n + 1)).map (fun i => sPt a b n i) := by
  rcases Nat.eq_zero_or_pos n with hn | hn
  · subst hn
    have h1 : List.range 1 = [0] := rfl
    simp [linspace, h1, sPt]
  · have h1 : n + 1 ≠ 1 := by omega
    simp only [linspace, if_neg h1]
    apply List.map_congr_left
    intro i _
    have h2 : ((n : ℚ) + 1) - 1 = (n : ℚ) := by ring
    simp only [sPt]
    push_cast
    rw [h2]

theorem sPt_succ_sub (a b : ℚ) (n : ℕ) (i : ℕ) :
    sPt a b n (i + 1) - sPt a b n i = (b - a) / (n : ℚ) := by
  simp only [sPt]
  push_cast
  ring

theorem stieltjesCompute_total (f g : ℚ → ℚ) (a b : ℚ) (n : ℕ) :
    stieltjesCompute (.ok (totalEval f)) (.ok (totalEval g)) a b (n : ℤ) =
      .ok (serverStieltjesFormula f g a b n) := by
  have h0 : ¬ ((n : ℤ) + 1 < 0) := by omega
  have h1 : ((n : ℤ) + 1).toNat = n + 1 := by omega
  simp only [stieltjesCompute, Bind.bind, Except.bind, if_neg h0, h1,
    linspace_eq_map, evalList_total, List.map_map]
  rw [adjPairs_range_map (g ∘ fun i => sPt a b n i) n,
    adjPairs_range_map (f ∘ fun i => sPt a b n i) n]
  rw [List.map_map, List.map_map, zipWith_map_same, sum_range_list]
  rfl

theorem linspace_length (a b : ℚ) (m : ℕ) : (linspace a b m).length = m := by
  unfold linspace
  split
  · simp [*]
  · simp

theorem mem_linspace_self (c : ℚ) (m : ℕ) : ∀ y ∈ linspace c c m, y = c := by
  intro y hy
  unfold linspace at hy
  split at hy
  · simp at hy
    exact hy
  · simp only [List.mem_map, List.mem_range] at hy
    obtain ⟨i, _, hi⟩ := hy
    rw [← hi, sub_self, mul_zero, zero_div, add_zero]

theorem foldl_min_const (c : ℚ) :
    ∀ (t : List ℚ) (acc : ℚ), (∀ y ∈ t, y = c) → acc = c →
      t.foldl min acc = c := by
  intro t
  induction t with
  | nil => intro acc _ hacc; exact hacc
  | cons x t ih =>
    intro acc hall hacc
    have hx : x = c := hall x (by simp)
    refine ih (min acc x) (fun y hy => hall y (by simp [hy])) ?_
    rw [hx, hacc, min_self]

theorem foldl_max_const (c : ℚ) :
    ∀ (t : List ℚ) (acc : ℚ), (∀ y ∈ t, y = c) → acc = c →
      t.foldl max acc = c := by
  intro t
  induction t with
  | nil => intro acc _ hacc; exact hacc
  | cons x t ih =>
    intro acc hall hacc
    have hx : x = c := hall x (by simp)
    refine ih (max acc x) (fun y hy => hall y (by simp [hy])) ?_
    rw [hx, hacc, max_self]

theorem listMin_eq_of_all (c : ℚ) (l : List ℚ) (hne : l ≠ [])
    (hall : ∀ y ∈ l, y = c) : listMin l = c := by
  cases l with
  | nil => exact absurd rfl hne
  | cons x t =>
    exact foldl_min_const c t x (fun y hy => hall y (by simp [hy]))
      (hall x (by simp))

theorem listMax_eq_of_all (c : ℚ) (l : List ℚ) (hne : l ≠ [])
    (hall : ∀ y ∈ l, y = c) : listMax l = c := by
  cases l with
  | nil => exact absurd rfl hne
  | cons x t =>
    exact foldl_max_const c t x (fun y hy => hall y (by simp [hy]))
      (hall x (by simp))

theorem foldl_min_le_foldl_max :
    ∀ (t : List ℚ) (a1 a2 : ℚ), a1 ≤ a2 →
      t.foldl min a1 ≤ t.foldl max a2 := by
  intro t
  induction t with
  | nil => intro a1 a2 h; exact h
  | cons x t ih =>
    intro a1 a2 h
    exact ih (min a1 x) (max a2 x)
      (le_trans (min_le_left a1 x) (le_trans h (le_max_left a2 x)))

theorem listMin_le_listMax (l : List ℚ) (hne : l ≠ []) :
    listMin l ≤ listMax l := by
  cases l with
  | nil => exact absurd rfl hne
  | cons x t => exact foldl_min_le_foldl_max t x x le_rfl

theorem linspace_getD_le (u v : ℚ) (m j : ℕ) (huv : u ≤ v) (hj : j < m) :
    (linspace u v m).getD j 0 ≤ v := by
  unfold linspace
  split
  · rename_i h1
    subst h1
    interval_cases j
    simpa using huv
  · rename_i h1
    have hlen : j < ((List.range m).map
        (fun i : ℕ => u + (i : ℚ) * (v - u) / ((m : ℚ) - 1))).length := by
      simpa using hj
    rw [List.getD_eq_getElem _ _ hlen]
    simp only [List.getElem_map, List.getElem_range]
    have hm2 : 2 ≤ m := by omega
    have hm1 : (0 : ℚ) < (m : ℚ) - 1 := by
      have : (2 : ℚ) ≤ (m : ℚ) := by exact_mod_cast hm2
      linarith
    have hj1 : (j : ℚ) ≤ (m : ℚ) - 1 := by
      have : (j : ℚ) + 1 ≤ (m : ℚ) := by exact_mod_cast hj
      linarith
    have h2 : (j : ℚ) * (v - u) ≤ ((m : ℚ) - 1) * (v - u) :=
      mul_le_mul_of_nonneg_right hj1 (sub_nonneg.mpr huv)
    have h3 : (j : ℚ) * (v - u) / ((m : ℚ) - 1) ≤
        ((m : ℚ) - 1) * (v - u) / ((m : ℚ) - 1) :=
      (div_le_div_iff_of_pos_right hm1).mpr h2
    rw [mul_div_assoc, mul_div_cancel_left₀ _ (ne_of_gt hm1)] at h3
    rw [mul_div_assoc]
    linarith

theorem itoPath_total (g : ℚ → ℚ → ℚ) :
    ∀ (l : List ℚ) (t dt w : ℚ),
      itoPath (totalEval2 g) t dt w l = .ok (itoPathPure g t dt w l) := by
  intro l
  induction l with
  | nil => intro t dt w; rfl
  | cons d rest ih =>
    intro t dt w
    simp [itoPath, itoPathPure, totalEval2, ih, Bind.bind, Except.bind]

theorem evalPaths_total (g : ℚ → ℚ → ℚ) (t0 dt : ℚ) :
    ∀ rows : List (List ℚ),
      evalPaths (totalEval2 g) t0 dt rows =
        .ok (rows.map (fun row => itoPathPure g t0 dt 0 row)) := by
  intro rows
  induction rows with
  | nil => rfl
  | cons row rest ih =>
    simp [evalPaths, itoPath_total, ih, Bind.bind, Except.bind]

theorem itoPathPure_eq_spec (g : ℚ → ℚ → ℚ) (dt : ℚ) :
    ∀ (l : List ℚ) (t w : ℚ),
      itoPathPure g t dt w l =
        ∑ i ∈ Finset.range l.length,
          g (t + i * dt) (w + (l.take i).sum) * l.getD i 0 := by
  intro l
  induction l with
  | nil => intro t w; simp [itoPathPure]
  | cons d rest ih =>
    intro t w
    rw [itoPathPure, List.length_cons, Finset.sum_range_succ']
    have hterm : ∀ i ∈ Finset.range rest.length,
        g (t + ((i + 1 : ℕ) : ℚ) * dt) (w + ((d :: rest).take (i + 1)).sum) *
            (d :: rest).getD (i + 1) 0 =
          g ((t + dt) + (i : ℚ) * dt) ((w + d) + (rest.take i).sum) *
            rest.getD i 0 := by
      intro i _
      rw [List.take_succ_cons, List.sum_cons, List.getD_cons_succ]
      have e1 : t + ((i + 1 : ℕ) : ℚ) * dt = (t + dt) + (i : ℚ) * dt := by
        push_cast
        ring
      have e2 : w + (d + (rest.take i).sum) = (w + d) + (rest.take i).sum := by
        ring
      rw [e1, e2]
    rw [Finset.sum_congr rfl hterm, ← ih (t + dt) (w + d)]
    simp [List.getD_cons_zero]
    ring

theorem evalList_eq_of_total (fe : EvalFn) (h : ℚ → ℚ)
    (hfe : ∀ x, fe x = .ok (h x)) :
    ∀ l : List ℚ, evalList fe l = .ok (l.map h) := by
  intro l
  induction l with
  | nil => rfl
  | cons x t ih => simp [evalList, hfe, ih, Bind.bind, Except.bind]

theorem linspace_getD_self (c : ℚ) (m j : ℕ) (hj : j < m) :
    (linspace c c m).getD j 0 = c := by
  have hlen : j < (linspace c c m).length := by
    rw [linspace_length]
    exact hj
  rw [List.getD_eq_getElem _ _ hlen]
  exact mem_linspace_self c m _ (List.getElem_mem hlen)

/-!
## Claim C1
-/

/-- C1 (amended): the five integral operations of `src/server.py` wrap
their whole body in `try`/`except` and therefore always *return* a
response dictionary — no input (malformed expression, evaluator exception,
bad parameters, any `dW` realization) makes them raise past the API
boundary. -/
theorem integral_handlers_never_raise :
    (∀ pf start stop method,
      (handle_riemann pf start stop method).isReturns = true) ∧
    (∀ pf start stop partitions,
      (handle_darboux pf start stop partitions).isReturns = true) ∧
    (∀ pf pg start stop partitions,
      (handle_riemann_stieltjes pf pg start stop partitions).isReturns = true) ∧
    (∀ pf start stop levels,
      (handle_lebesgue pf start stop levels).isReturns = true) ∧
    (∀ pf startT stopT paths steps dW sqrtQ,
      (handle_ito pf startT stopT paths steps dW sqrtQ).isReturns = true) :=
  ⟨fun _ _ _ _ => rfl, fun _ _ _ _ => rfl, fun _ _ _ _ _ => rfl,
   fun _ _ _ _ => rfl, fun _ _ _ _ _ _ _ => rfl⟩

/-- Counterexample for C1: `linear_regression` (registered as a tool in
`mcp_calc_tools/server/server.py`) has no `try`/`except`; on mismatched
array lengths it raises `ValueError` past the API boundary instead of
returning a tagged error result. -/
theorem linear_regression_raises_on_mismatch :
    linear_regression [1] [1, 2] =
      .raises "Input arrays must be the same length" := by
  rfl

/-!
## Claim C3
-/

/-- C3 (amended): `riemann_sum` has no parameter guard.  At `n = 0` the
division `delta_x = (b - a) / n` executes and the `ZeroDivisionError` it
raises is caught and reported as the error result — there is no
`InvalidParameterError` anywhere.  A negative `n` is not rejected at all:
the comprehension `range(n)` is empty and the left-method sum returns the
success value `0`. -/
theorem riemann_sum_nonpositive_n :
    (∀ (f : EvalFn) (a b : ℚ) (method : String),
      riemann_sum (.ok f) a b 0 method = .zeroDivError) ∧
    (∀ (f : EvalFn) (a b : ℚ) (n : ℤ), n < 0 →
      riemann_sum (.ok f) a b n "left" = .val 0) := by
  constructor
  · intro f a b method
    rfl
  · intro f a b n hn
    have hne : ¬ (n = 0) := by omega
    have ht : n.toNat = 0 := by omega
    simp [riemann_sum, hne, ht, evalList]

/-- Counterexample for C3: with subdivision count `0` the core
`riemann_sum` reaches the division by `n` and reports the caught division
fault (not an `InvalidParameterError`), and with subdivision count `-1` it
does not fail at all — it returns the empty sum `0` as a success. -/
theorem riemann_sum_zero_and_negative_n :
    riemann_sum (.ok (totalEval (fun q => q))) 0 1 0 "left" = .zeroDivError ∧
    riemann_sum (.ok (totalEval (fun q => q))) 0 1 (-1) "left" = .val 0 := by
  constructor
  · rfl
  · rfl

/-!
## Claim C9
-/

/-- C9 (amended): the shadowed `integrate` and `limit` of
`core/calculus.py` always return an `"Error: "`-prefixed string and never
a symbolic result.  The self-call recurses exactly once: the second frame
passes the already-converted `Symbol` back into `symbols()`, which raises
`TypeError` (not the recursion limit), and that caught exception is
reported. -/
theorem integrate_limit_always_error :
    (∀ fuel e v, errorTagged (integrate fuel e v)) ∧
    (∀ fuel e v a, errorTagged (limit fuel e v a)) ∧
    (∀ fuel v, integrate (fuel + 2) (.str true) (.name v) =
      "Error: Symbol object is not iterable") ∧
    (∀ fuel v a, limit (fuel + 2) (.str true) (.name v) a =
      "Error: Symbol object is not iterable") := by
  refine ⟨?_, ?_, fun fuel v => rfl, fun fuel v a => rfl⟩
  · intro fuel
    induction fuel with
    | zero => intro e v; exact ⟨"maximum recursion depth exceeded", rfl⟩
    | succ n ih =>
      intro e v
      cases e with
      | str b =>
        cases b with
        | false => exact ⟨"Sympify could not parse the expression", rfl⟩
        | true =>
          cases v with
          | name s => exact ih .expr (.sym s)
          | sym s => exact ⟨"Symbol object is not iterable", rfl⟩
      | expr =>
        cases v with
        | name s => exact ih .expr (.sym s)
        | sym s => exact ⟨"Symbol object is not iterable", rfl⟩
  · intro fuel
    induction fuel with
    | zero => intro e v a; exact ⟨"maximum recursion depth exceeded", rfl⟩
    | succ n ih =>
      intro e v a
      cases e with
      | str b =>
        cases b with
        | false => exact ⟨"Sympify could not parse the expression", rfl⟩
        | true =>
          cases v with
          | name s => exact ih .expr (.sym s) a
          | sym s => exact ⟨"Symbol object is not iterable", rfl⟩
      | expr =>
        cases v with
        | name s => exact ih .expr (.sym s) a
        | sym s => exact ⟨"Symbol object is not iterable", rfl⟩

/-- Counterexample for C9: at the Python default recursion headroom
(1000) on a well-formed expression and variable name, the reported error
is the `TypeError` raised by `symbols()` in the first recursive frame —
not the recursion-limit error the claim describes. -/
theorem integrate_error_is_type_error :
    integrate 1000 (.str true) (.name "x") =
      "Error: Symbol object is not iterable" ∧
    integrate 1000 (.str true) (.name "x") ≠
      "Error: maximum recursion depth exceeded" := by
  have h : integrate 1000 (.str true) (.name "x") =
      "Error: Symbol object is not iterable" := rfl
  refine ⟨h, ?_⟩
  rw [h]
  decide

/-!
## Claim C2
-/

theorem riemannCompute_not_special (pf : Except String EvalFn)
    (a b : ℚ) (method : String) (h1 : method ≠ "left") (h2 : method ≠ "right")
    (h3 : method ≠ "midpoint") :
    riemannCompute pf a b method = riemannCompute pf a b "trapezoid" := by
  cases pf with
  | error m => rfl
  | ok f =>
    have t1 : ¬ (("trapezoid" : String) = "left") := by decide
    have t2 : ¬ (("trapezoid" : String) = "right") := by decide
    have t3 : ¬ (("trapezoid" : String) = "midpoint") := by decide
    simp only [riemannCompute, Bind.bind, Except.bind, if_neg h1, if_neg h2,
      if_neg h3, if_neg t1, if_neg t2, if_neg t3]

theorem riemannCompute_total_isOk (g : ℚ → ℚ) (a b : ℚ) (method : String) :
    ∃ v, riemannCompute (.ok (totalEval g)) a b method = .ok v := by
  simp only [riemannCompute, Bind.bind, Except.bind]
  split_ifs <;> rw [evalList_total] <;> exact ⟨_, rfl⟩

/-- C2 (amended): the core `riemann_sum` does return the descriptive
invalid-method error for any selector outside the enumerated set, but the
`riemann_integral` operation of `src/server.py` does not — for any method
outside {left, right, midpoint} its `else:  # trapezoid` branch silently
computes the trapezoid result instead of an error. -/
theorem riemann_method_dispatch :
    (∀ (f : EvalFn) (a b : ℚ) (n : ℤ) (method : String), n ≠ 0 →
      method ∉ (["left", "right", "midpoint", "trapezoid"] : List String) →
      riemann_sum (.ok f) a b n method = .invalidMethodError) ∧
    (∀ (pf : Except String EvalFn) (a b : ℚ) (method : String),
      method ∉ (["left", "right", "midpoint"] : List String) →
      (respOf (handle_riemann pf a b method)).lookup "result" =
        (respOf (handle_riemann pf a b "trapezoid")).lookup "result") := by
  constructor
  · intro f a b n method hn hm
    simp only [List.mem_cons, List.not_mem_nil, or_false] at hm
    push_neg at hm
    obtain ⟨h1, h2, h3, h4⟩ := hm
    simp only [riemann_sum, if_neg hn, if_neg h1, if_neg h2, if_neg h3,
      if_neg h4]
  · intro pf a b method hm
    simp only [List.mem_cons, List.not_mem_nil, or_false] at hm
    push_neg at hm
    obtain ⟨h1, h2, h3⟩ := hm
    have hc := riemannCompute_not_special pf a b method h1 h2 h3
    cases hres : riemannCompute pf a b "trapezoid" with
    | ok v => simp [handle_riemann, hc, hres, respOf]
    | error m => simp [handle_riemann, hc, hres, respOf]

/-- Counterexample for C2: the unknown scheme name `"simpson"` passed to
the server Riemann operation produces a *success* response (no `"error"`
key) whose `"result"` silently equals the trapezoid result. -/
theorem riemann_unknown_method_silent_fallback :
    (respOf (handle_riemann (.ok (totalEval (fun q => q))) 0 1
        "simpson")).lookup "error" = none ∧
    (respOf (handle_riemann (.ok (totalEval (fun q => q))) 0 1
        "simpson")).lookup "result" =
      (respOf (handle_riemann (.ok (totalEval (fun q => q))) 0 1
        "trapezoid")).lookup "result" := by
  have hc := riemannCompute_not_special (.ok (totalEval (fun q => q))) 0 1
    "simpson" (by decide) (by decide) (by decide)
  obtain ⟨v, hv⟩ := riemannCompute_total_isOk (fun q => q) 0 1 "trapezoid"
  constructor
  · simp only [handle_riemann, hc, hv, respOf]
    rfl
  · simp only [handle_riemann, hc, hv, respOf]
    rfl

/-!
## Claim C6
-/

/-- C6 (amended): for the five integral operations of `src/server.py` the
reserved-key discipline holds — an error response is exactly the
single-key dictionary `{"error": message}` and a success response never
contains the key `"error"`.  (`numerical_integration_methods` of
`advanced_calculus.py` breaks it: see the counterexample.) -/
theorem server_handlers_error_key_discipline :
    (∀ pf a b method,
      keysOf (respOf (handle_riemann pf a b method)) = ["error"] ∨
      "error" ∉ keysOf (respOf (handle_riemann pf a b method))) ∧
    (∀ pf a b partitions,
      keysOf (respOf (handle_darboux pf a b partitions)) = ["error"] ∨
      "error" ∉ keysOf (respOf (handle_darboux pf a b partitions))) ∧
    (∀ pf pg a b partitions,
      keysOf (respOf (handle_riemann_stieltjes pf pg a b partitions)) = ["error"] ∨
      "error" ∉ keysOf (respOf (handle_riemann_stieltjes pf pg a b partitions))) ∧
    (∀ pf a b levels,
      keysOf (respOf (handle_lebesgue pf a b levels)) = ["error"] ∨
      "error" ∉ keysOf (respOf (handle_lebesgue pf a b levels))) ∧
    (∀ pf t0 t1 paths steps dW sqrtQ,
      keysOf (respOf (handle_ito pf t0 t1 paths steps dW sqrtQ)) = ["error"] ∨
      "error" ∉ keysOf (respOf (handle_ito pf t0 t1 paths steps dW sqrtQ))) := by
  refine ⟨?_, ?_, ?_, ?_, ?_⟩
  · intro pf a b method
    cases h : riemannCompute pf a b method with
    | ok v => right; simp [handle_riemann, h, respOf, keysOf]
    | error m => left; simp [handle_riemann, h, respOf, keysOf]
  · intro pf a b partitions
    cases h : darbouxCompute pf a b partitions with
    | ok v => right; simp [handle_darboux, h, respOf, keysOf]
    | error m => left; simp [handle_darboux, h, respOf, keysOf]
  · intro pf pg a b partitions
    cases h : stieltjesCompute pf pg a b partitions with
    | ok v => right; simp [handle_riemann_stieltjes, h, respOf, keysOf]
    | error m => left; simp [handle_riemann_stieltjes, h, respOf, keysOf]
  · intro pf a b levels
    cases h : lebesgueCompute pf a b levels with
    | ok v => right; simp [handle_lebesgue, h, respOf, keysOf]
    | error m => left; simp [handle_lebesgue, h, respOf, keysOf]
  · intro pf t0 t1 paths steps dW sqrtQ
    cases h : itoCompute pf t0 t1 paths steps dW with
    | ok v => right; simp [handle_ito, h, respOf, keysOf]
    | error m => left; simp [handle_ito, h, respOf, keysOf]

/-- Counterexample for C6: a *successful* `numerical_integration_methods`
call (midpoint method, constant integrand 1 on `[0, 1]`, 2 points) returns
a response carrying both a numeric `"result"` and the reserved key
`"error"` (holding the numeric error estimate 0) — so a success response
does include the key `"error"`. -/
theorem numerical_integration_success_has_error_key :
    (numerical_integration_methods (totalEval (fun _ => 1)) 0 1 "midpoint" 2
        (0, 0) (0, 0)).lookup "result" = some (.num 1) ∧
    (numerical_integration_methods (totalEval (fun _ => 1)) 0 1 "midpoint" 2
        (0, 0) (0, 0)).lookup "error" = some (.num 0) := by
  have hr2 : List.range 2 = [0, 1] := by decide
  have hlin : linspace (0 + (1 - 0) / (2 : ℚ) / 2)
      (1 - (1 - 0) / (2 : ℚ) / 2) ((2 : ℤ).toNat) = [1/4, 3/4] := by
    simp [linspace, hr2]
    norm_num
  constructor <;>
  · simp [numerical_integration_methods, numIntTry, Bind.bind, Except.bind,
      evalList_total, everyOther, linspace, hr2, List.lookup]
    norm_num

/-!
## Claim C7
-/

theorem darbouxCompute_ok_le (pf : Except String EvalFn) (start stop : ℚ)
    (partitions : ℤ) (uv : ℚ × ℚ) (hp : 0 < partitions) (hse : start ≤ stop)
    (h : darbouxCompute pf start stop partitions = .ok uv) : uv.2 ≤ uv.1 := by
  cases pf with
  | error m => simp [darbouxCompute] at h
  | ok f =>
    have h1 : ¬ (partitions + 1 < 0) := by omega
    have h2 : ¬ (partitions = 0) := by omega
    simp only [darbouxCompute, if_neg h1, if_neg h2] at h
    cases hys : evalList f (linspace start stop (partitions + 1).toNat) with
    | error m => rw [hys] at h; simp at h
    | ok ys =>
      rw [hys] at h
      simp only [Except.ok.injEq] at h
      subst h
      dsimp only
      have hdx : (0 : ℚ) ≤ (stop - start) / (partitions : ℚ) := by
        apply div_nonneg (sub_nonneg.mpr hse)
        exact_mod_cast hp.le
      apply List.sum_le_sum
      intro p _
      exact mul_le_mul_of_nonneg_right min_le_max hdx

/-- C7 (amended): whenever `start ≤ end` (and the partition count is
positive), a successful Darboux response satisfies
`lower_sum ≤ upper_sum`; for a reversed interval the width `dx` is
negative and the inequality flips (see the counterexample). -/
theorem darboux_lower_le_upper (pf : Except String EvalFn) (start stop : ℚ)
    (partitions : ℤ) (hp : 0 < partitions) (hse : start ≤ stop) :
    numAt (respOf (handle_darboux pf start stop partitions)) "lower_sum" ≤
      numAt (respOf (handle_darboux pf start stop partitions)) "upper_sum" := by
  cases hres : darbouxCompute pf start stop partitions with
  | error m =>
    simp only [handle_darboux, hres, respOf]
    exact le_refl 0
  | ok uv =>
    have hle := darbouxCompute_ok_le pf start stop partitions uv hp hse hres
    simp only [handle_darboux, hres, respOf]
    exact hle

/-- Counterexample for C7: on the reversed interval `[1, 0]` (the spec's
data model allows `start > end`) with one partition and integrand `x`, the
Darboux operation succeeds and returns `upper_sum = -1 < 0 = lower_sum`. -/
theorem darboux_reversed_interval_violation :
    numAt (respOf (handle_darboux (.ok (totalEval (fun q => q))) 1 0 1))
      "upper_sum" = -1 ∧
    numAt (respOf (handle_darboux (.ok (totalEval (fun q => q))) 1 0 1))
      "lower_sum" = 0 ∧
    ¬ ((0 : ℚ) ≤ -1) := by
  have hr2 : List.range 2 = [0, 1] := by decide
  have hcomp : darbouxCompute (.ok (totalEval (fun q => q))) 1 0 1 =
      .ok (-1, 0) := by
    simp [darbouxCompute, linspace, hr2, evalList_total, adjPairs]
    norm_num [max_def, min_def]
  refine ⟨?_, ?_, by norm_num⟩
  · simp only [handle_darboux, hcomp, respOf]
    rfl
  · simp only [handle_darboux, hcomp, respOf]
    rfl

/-!
## Claim C4
-/

/-- C4 (amended): with integrator `g(x) = x` the server Riemann–Stieltjes
operation returns *exactly* the endpoint-average (composite trapezoid)
Riemann sum of `f` over the same uniform partition — not the midpoint
Riemann sum, from which it differs by more than any floating-point
tolerance for nonlinear `f` (see the counterexample). -/
theorem stieltjes_identity_integrator_eq_trapezoid (f : ℚ → ℚ) (a b : ℚ)
    (n : ℕ) :
    numAt (respOf (handle_riemann_stieltjes (.ok (totalEval f))
        (.ok (totalEval (fun x => x))) a b (n : ℤ))) "result" =
      endpointAvgSum f a b n := by
  have h := stieltjesCompute_total f (fun x => x) a b n
  simp only [handle_riemann_stieltjes, h, respOf]
  show serverStieltjesFormula f (fun x => x) a b n = endpointAvgSum f a b n
  unfold serverStieltjesFormula endpointAvgSum
  refine Finset.sum_congr rfl (fun i _ => ?_)
  dsimp only
  rw [sPt_succ_sub]

/-- Counterexample for C4: for `f(x) = x²` on `[0, 1]` with 2 partitions,
the Stieltjes operation with integrator `g(x) = x` returns `3/8` while the
plain midpoint Riemann sum over the same partition is `5/16`; they differ
by `1/16 = 0.0625`, far beyond floating-point tolerance. -/
theorem stieltjes_identity_not_midpoint :
    numAt (respOf (handle_riemann_stieltjes (.ok (totalEval (fun q => q * q)))
        (.ok (totalEval (fun q => q))) 0 1 2)) "result" = 3/8 ∧
    midpointSum (fun q => q * q) 0 1 2 = 5/16 ∧
    (3/8 : ℚ) - 5/16 = 1/16 := by
  refine ⟨?_, ?_, by norm_num⟩
  · have h := stieltjesCompute_total (fun q => q * q) (fun q => q) 0 1 2
    have h2 : ((2 : ℕ) : ℤ) = (2 : ℤ) := by norm_num
    rw [h2] at h
    simp only [handle_riemann_stieltjes, h, respOf]
    show serverStieltjesFormula (fun q => q * q) (fun q => q) 0 1 2 = 3/8
    simp [serverStieltjesFormula, sPt, Finset.sum_range_succ]
    norm_num
  · simp [midpointSum, midPt, Finset.sum_range_succ]
    norm_num

/-!
## Claim C5
-/

/-- C5 (amended): neither implementation computes the spec formula
`Σ f(midpoint_i)·Δg_i`.  The server operation computes
`Σ ((f(x_i) + f(x_{i+1}))/2)·Δg_i` (average of the endpoint values of `f`,
not `f` at the midpoint); the core `riemann_stieltjes_sum` with the
midpoint method computes `Σ f(m_i)·g(m_i)·Δx` (pointwise product with `g`
itself, not with an increment of `g`). -/
theorem stieltjes_actual_formulas :
    (∀ (f g : ℚ → ℚ) (a b : ℚ) (n : ℕ),
      numAt (respOf (handle_riemann_stieltjes (.ok (totalEval f))
          (.ok (totalEval g)) a b (n : ℤ))) "result" =
        serverStieltjesFormula f g a b n) ∧
    (∀ (f g : ℚ → ℚ) (a b : ℚ) (n : ℕ), 0 < n →
      riemann_stieltjes_sum (.ok (totalEval f)) (.ok (totalEval g)) a b
          (n : ℤ) "midpoint" =
        .val (∑ i ∈ Finset.range n,
          f (midPt a b n i) * g (midPt a b n i) * ((b - a) / (n : ℚ)))) := by
  constructor
  · intro f g a b n
    have h := stieltjesCompute_total f g a b n
    simp only [handle_riemann_stieltjes, h, respOf]
    rfl
  · intro f g a b n hn
    have hn0 : ¬ ((n : ℤ) = 0) := by omega
    have ht : (n : ℤ).toNat = n := by omega
    have hm1 : ¬ (("midpoint" : String) = "left") := by decide
    have hm2 : ¬ (("midpoint" : String) = "right") := by decide
    simp only [riemann_stieltjes_sum, if_neg hn0, if_neg hm1, if_neg hm2,
      if_pos (rfl : ("midpoint" : String) = "midpoint"), if_true, ht]
    rw [evalList_eq_of_total
      (fun x =>
        match totalEval f x with
        | .error m => .error m
        | .ok u =>
          match totalEval g x with
          | .error m => .error m
          | .ok v => .ok (u * v))
      (fun x => f x * g x) (fun x => rfl)]
    simp only [List.map_map]
    rw [sum_range_list]
    congr 1

/-- Counterexample for C5: for `f(x) = x²`, `g(x) = x` on `[0, 1]` with 2
subdivisions the spec formula `Σ f(midpoint_i)·Δg_i` gives `5/16`, but the
server operation returns `3/8` and the core `riemann_stieltjes_sum`
returns `7/32` — neither computes the claimed formula. -/
theorem stieltjes_not_spec_formula :
    numAt (respOf (handle_riemann_stieltjes (.ok (totalEval (fun q => q * q)))
        (.ok (totalEval (fun q => q))) 0 1 2)) "result" = 3/8 ∧
    specStieltjesMid (fun q => q * q) (fun q => q) 0 1 2 = 5/16 ∧
    riemann_stieltjes_sum (.ok (totalEval (fun q => q * q)))
        (.ok (totalEval (fun q => q))) 0 1 2 "midpoint" = .val (7/32) ∧
    (3/8 : ℚ) ≠ 5/16 ∧ (7/32 : ℚ) ≠ 5/16 := by
  refine ⟨?_, ?_, ?_, by norm_num, by norm_num⟩
  · have h := stieltjesCompute_total (fun q => q * q) (fun q => q) 0 1 2
    have h2 : ((2 : ℕ) : ℤ) = (2 : ℤ) := by norm_num
    rw [h2] at h
    simp only [handle_riemann_stieltjes, h, respOf]
    show serverStieltjesFormula (fun q => q * q) (fun q => q) 0 1 2 = 3/8
    simp [serverStieltjesFormula, sPt, Finset.sum_range_succ]
    norm_num
  · simp [specStieltjesMid, midPt, sPt, Finset.sum_range_succ]
    norm_num
  · have hn0 : ¬ ((2 : ℤ) = 0) := by decide
    have ht : (2 : ℤ).toNat = 2 := by decide
    have hr2 : List.range 2 = [0, 1] := by decide
    have hm1 : ¬ (("midpoint" : String) = "left") := by decide
    have hm2 : ¬ (("midpoint" : String) = "right") := by decide
    simp only [riemann_stieltjes_sum, if_neg hn0, if_neg hm1, if_neg hm2,
      if_pos (rfl : ("midpoint" : String) = "midpoint"), if_true, ht]
    rw [evalList_eq_of_total
      (fun x =>
        match totalEval (fun q => q * q) x with
        | .error m => .error m
        | .ok u =>
          match totalEval (fun q => q) x with
          | .error m => .error m
          | .ok v => .ok (u * v))
      (fun x => (x * x) * x) (fun x => rfl)]
    rw [hr2]
    simp only [List.map_cons, List.map_nil, List.sum_cons, List.sum_nil]
    norm_num

/-!
## Claim C8
-/

/-- C8: for every integrand, interval, positive `steps` and `paths`, and
*every* realization `dW` of the Wiener increments (one row of `steps`
increments per path), the Ito operation evaluates the integrand at the
left endpoints `(t_i, W_i)`, accumulates `Σ f(t_i, W_i)·dW_i` per path,
and returns exactly the spec aggregate: sample mean, sample standard
deviation, and the 95% confidence interval `mean ± 1.96·std/√paths`. -/
theorem ito_matches_spec (f : ℚ → ℚ → ℚ) (startT stopT : ℚ)
    (paths steps : ℤ) (dW : List (List ℚ)) (sqrtQ : ℚ → ℚ)
    (hsteps : 0 < steps) (hpaths : 0 < paths)
    (hrows : ∀ row ∈ dW, row.length = steps.toNat) :
    respOf (handle_ito (.ok (totalEval2 f)) startT stopT paths steps dW sqrtQ) =
      specItoResp f startT stopT paths steps dW sqrtQ := by
  have h1 : ¬ (steps = 0) := by omega
  have h2 : ¬ (paths < 0) := by omega
  have hvals :
      dW.map (fun row =>
        itoPathPure f startT ((stopT - startT) / (steps : ℚ)) 0 row) =
      dW.map (fun row =>
        specPathIntegral f startT ((stopT - startT) / (steps : ℚ))
          steps.toNat row) := by
    refine List.map_congr_left (fun row hrow => ?_)
    rw [itoPathPure_eq_spec, hrows row hrow]
    unfold specPathIntegral
    refine Finset.sum_congr rfl (fun i _ => ?_)
    rw [zero_add]
  simp only [handle_ito, itoCompute, if_neg h1, if_neg h2, evalPaths_total,
    hvals, specItoResp, respOf]

/-!
## Claim C10
-/

/-- C10: the bands of the Lebesgue operation are half-open
`[level, next_level)`, so a domain sample whose value equals the sampled
maximum `y_max` is counted in no band (for *any* integrand); consequently
a constant integrand `c` — for which `y_min = y_max` makes every band
empty — yields result `0`, not `c·(end − start)`. -/
theorem lebesgue_constant_zero (c start stop : ℚ) (levels : ℤ)
    (_h1 : start < stop) (h2 : 0 ≤ levels) :
    (∀ (g : ℚ → ℚ) (i : ℕ), i < (levels - 1).toNat →
      bandMask
        ((linspace (listMin ((linspace start stop 1000).map g))
            (listMax ((linspace start stop 1000).map g)) levels.toNat).getD i 0)
        ((linspace (listMin ((linspace start stop 1000).map g))
            (listMax ((linspace start stop 1000).map g)) levels.toNat).getD
          (i + 1) 0)
        (listMax ((linspace start stop 1000).map g)) = false) ∧
    lebesgueCompute (.ok (totalEval (fun _ => c))) start stop levels =
      .ok 0 := by
  constructor
  · intro g i hi
    have hlen : ((linspace start stop 1000).map g).length = 1000 := by
      rw [List.length_map, linspace_length]
    have hne : (linspace start stop 1000).map g ≠ [] := by
      intro hnil
      rw [hnil] at hlen
      simp at hlen
    have huv := listMin_le_listMax _ hne
    have hkey :
        (linspace (listMin ((linspace start stop 1000).map g))
          (listMax ((linspace start stop 1000).map g)) levels.toNat).getD
            (i + 1) 0 ≤ listMax ((linspace start stop 1000).map g) :=
      linspace_getD_le _ _ _ _ huv (by omega)
    have hnl := not_lt.mpr hkey
    unfold bandMask
    rw [decide_eq_false hnl, Bool.and_false]
  · have hys := evalList_total (fun (_ : ℚ) => c) (linspace start stop 1000)
    have hlen : ((linspace start stop 1000).map (fun (_ : ℚ) => c)).length =
        1000 := by
      rw [List.length_map, linspace_length]
    have hne : (linspace start stop 1000).map (fun (_ : ℚ) => c) ≠ [] := by
      intro hnil
      rw [hnil] at hlen
      simp at hlen
    have hall : ∀ y ∈ (linspace start stop 1000).map (fun (_ : ℚ) => c),
        y = c := by
      intro y hy
      simp only [List.mem_map] at hy
      obtain ⟨x, _, hx⟩ := hy
      exact hx.symm
    have hmin := listMin_eq_of_all c _ hne hall
    have hmax := listMax_eq_of_all c _ hne hall
    unfold lebesgueCompute
    dsimp only
    rw [hys]
    dsimp only
    rw [hmin, hmax, if_neg (by omega : ¬ levels < 0)]
    refine congrArg Except.ok ?_
    apply List.sum_eq_zero
    intro x hx
    simp only [List.mem_map, List.mem_range] at hx
    obtain ⟨i, hi, hterm⟩ := hx
    have hi1 : i < levels.toNat := by omega
    have hi2 : i + 1 < levels.toNat := by omega
    rw [linspace_getD_self c _ i hi1, linspace_getD_self c _ (i + 1) hi2] at hterm
    have hfilter : ((linspace start stop 1000).map (fun (_ : ℚ) => c)).filter
        (fun y => bandMask c c y) = [] := by
      rw [List.filter_eq_nil_iff]
      intro y hy
      rw [hall y hy]
      simp [bandMask]
    rw [hfilter] at hterm
    simp at hterm
    exact hterm.symm

/-!
## Witnesses
-/

/-- Witness for the C2 theorem at the concrete unknown method
`"simpson"` with `n = 1` on `[0, 1]`. -/
theorem riemann_method_dispatch_witness :
    ((1 : ℤ) ≠ 0) ∧
    ("simpson" ∉ (["left", "right", "midpoint", "trapezoid"] : List String)) ∧
    ("simpson" ∉ (["left", "right", "midpoint"] : List String)) ∧
    riemann_sum (.ok (totalEval (fun q => q))) 0 1 1 "simpson" =
      .invalidMethodError ∧
    (respOf (handle_riemann (.ok (totalEval (fun q => q))) 0 1
        "simpson")).lookup "result" =
      (respOf (handle_riemann (.ok (totalEval (fun q => q))) 0 1
        "trapezoid")).lookup "result" :=
  ⟨by decide, by decide, by decide,
   riemann_method_dispatch.1 (totalEval (fun q => q)) 0 1 1 "simpson"
     (by decide) (by decide),
   riemann_method_dispatch.2 (.ok (totalEval (fun q => q))) 0 1 "simpson"
     (by decide)⟩

/-- Witness for the C3 theorem at `n = 0` and `n = -1`. -/
theorem riemann_sum_nonpositive_n_witness :
    ((-1 : ℤ) < 0) ∧
    riemann_sum (.ok (totalEval (fun q => q))) 0 1 0 "midpoint" =
      .zeroDivError ∧
    riemann_sum (.ok (totalEval (fun q => q))) 0 1 (-1) "left" = .val 0 :=
  ⟨by decide,
   riemann_sum_nonpositive_n.1 (totalEval (fun q => q)) 0 1 "midpoint",
   riemann_sum_nonpositive_n.2 (totalEval (fun q => q)) 0 1 (-1) (by decide)⟩

/-- Witness for the C5 theorem at `f = g = id` on `[0, 1]` with `n = 2`. -/
theorem stieltjes_actual_formulas_witness :
    (0 < (2 : ℕ)) ∧
    numAt (respOf (handle_riemann_stieltjes (.ok (totalEval (fun q => q)))
        (.ok (totalEval (fun q => q))) 0 1 ((2 : ℕ) : ℤ))) "result" =
      serverStieltjesFormula (fun q => q) (fun q => q) 0 1 2 ∧
    riemann_stieltjes_sum (.ok (totalEval (fun q => q)))
        (.ok (totalEval (fun q => q))) 0 1 ((2 : ℕ) : ℤ) "midpoint" =
      .val (∑ i ∈ Finset.range 2,
        midPt 0 1 2 i * midPt 0 1 2 i * ((1 - 0) / ((2 : ℕ) : ℚ))) :=
  ⟨by decide,
   stieltjes_actual_formulas.1 (fun q => q) (fun q => q) 0 1 2,
   stieltjes_actual_formulas.2 (fun q => q) (fun q => q) 0 1 2 (by decide)⟩

/-- Witness for the C7 theorem on `[0, 1]` with one partition. -/
theorem darboux_lower_le_upper_witness :
    ((0 : ℤ) < 1) ∧ ((0 : ℚ) ≤ 1) ∧
    numAt (respOf (handle_darboux (.ok (totalEval (fun q => q))) 0 1 1))
        "lower_sum" ≤
      numAt (respOf (handle_darboux (.ok (totalEval (fun q => q))) 0 1 1))
        "upper_sum" :=
  ⟨by decide, by norm_num,
   darboux_lower_le_upper (.ok (totalEval (fun q => q))) 0 1 1 (by decide)
     (by norm_num)⟩

/-- Witness for the C8 theorem: one path, one step, increment `dW = 1`,
constant integrand. -/
theorem ito_matches_spec_witness :
    ((0 : ℤ) < 1) ∧
    (∀ row ∈ ([[1]] : List (List ℚ)), row.length = (1 : ℤ).toNat) ∧
    respOf (handle_ito (.ok (totalEval2 (fun _ _ => 1))) 0 1 1 1 [[1]]
        (fun q => q)) =
      specItoResp (fun _ _ => 1) 0 1 1 1 [[1]] (fun q => q) :=
  ⟨by decide, by decide,
   ito_matches_spec (fun _ _ => 1) 0 1 1 1 [[1]] (fun q => q) (by decide)
     (by decide) (by decide)⟩

/-- Witness for the C10 theorem: constant integrand `1` on `[0, 1]` with
the default 100 levels. -/
theorem lebesgue_constant_zero_witness :
    ((0 : ℚ) < 1) ∧ ((0 : ℤ) ≤ 100) ∧
    ((∀ (g : ℚ → ℚ) (i : ℕ), i < ((100 : ℤ) - 1).toNat →
      bandMask
        ((linspace (listMin ((linspace 0 1 1000).map g))
            (listMax ((linspace 0 1 1000).map g)) (100 : ℤ).toNat).getD i 0)
        ((linspace (listMin ((linspace 0 1 1000).map g))
            (listMax ((linspace 0 1 1000).map g)) (100 : ℤ).toNat).getD
          (i + 1) 0)
        (listMax ((linspace 0 1 1000).map g)) = false) ∧
    lebesgueCompute (.ok (totalEval (fun _ => (1 : ℚ)))) 0 1 100 = .ok 0) :=
  ⟨by norm_num, by decide,
   lebesgue_constant_zero 1 0 1 100 (by norm_num) (by decide)⟩
